import Mathlib

/-!
# Verification of `StringHash.h` (compile-time / run-time FNV-1a string hashing)

Shallow embedding of the single header `src/StringHash.h`.

Modelling decisions:

* A C string / character array is a `List Nat` of the bytes stored in memory,
  each in `0..255`.  Where a property needs the byte range it is taken as a
  hypothesis (`∀ b ∈ s, b < 256`).
* `uint32_t` values are `Nat` with an explicit `% 4294967296` (= 2^32) wherever
  the C++ arithmetic can wrap.  XOR of two values `< 2^32` is `< 2^32`, so the
  source's `hash ^= value` needs no reduction, and `hash *= 16777619u` reduces
  modulo 2^32, exactly as in the source.
* The source reads characters through the type `char` and converts them with
  `static_cast<uint32_t>` (lines 48 and 85).  On the platforms this header
  targets (x86/x64 MSVC, GCC, Clang) `char` is signed, so a stored byte
  `b >= 128` represents the char value `b - 256` and the cast sign-extends it
  to `2^32 - 256 + b`.  `charCast` transcribes that conversion.
* Out-of-range reads (a `length` larger than the buffer, `strlen` on a buffer
  with no terminator) are undefined behaviour in C++; the model totalises them
  in the only structural way (stop at the end of the list).  Every theorem that
  depends on in-range behaviour carries the corresponding hypothesis.
-/

/-- The 32-bit modulus `2^32`. -/
def U32MOD : Nat := 4294967296

/-- `static_cast<uint32_t>` applied to a `char` holding the memory byte `b`
(`0 ≤ b < 256`): identity below 128, sign extension `2^32 - 256 + b` above. -/
def charCast (b : Nat) : Nat := if b < 128 then b else 4294967040 + b

/-- One iteration of the loop body of `GenerateFNV1aHash` (StringHash.h lines
48-50): `value = static_cast<uint32_t>(*str++); hash ^= value; hash *= 16777619u;`.
The body of `Hash<I>::GenerateHash` (line 85) performs the same operation. -/
def fnvStep (hash b : Nat) : Nat := ((hash ^^^ charCast b) * 16777619) % U32MOD

/-- `uint32_t GenerateFNV1aHash(const char* str, size_t length, uint32_t hash)`
(StringHash.h lines 44-54): the loop `for (byte = 0; byte < length; ++byte)`
advancing the pointer through the buffer.  If the buffer is exhausted before
`length` bytes were read (undefined behaviour in C++) the model stops. -/
def GenerateFNV1aHash3 (str : List Nat) (length hash : Nat) : Nat :=
  match length, str with
  | 0, _ => hash
  | _ + 1, [] => hash
  | l + 1, b :: rest => GenerateFNV1aHash3 rest l (fnvStep hash b)

/-- `uint32_t GenerateFNV1aHash(const char* str, size_t length)` (lines 56-59):
delegates with the offset basis `2166136261u` as seed. -/
def GenerateFNV1aHash2 (str : List Nat) (length : Nat) : Nat :=
  GenerateFNV1aHash3 str length 2166136261

/-- `strlen` as used on line 63: the number of bytes strictly before the first
zero byte (scanning a buffer without terminator is UB; the model returns the
buffer length there). -/
def cstrlen : List Nat → Nat
  | [] => 0
  | b :: rest => if b = 0 then 0 else cstrlen rest + 1

/-- `uint32_t GenerateFNV1aHash(const char* str)` (lines 61-64): computes the
length with `strlen` and delegates. -/
def GenerateFNV1aHash1 (str : List Nat) : Nat :=
  GenerateFNV1aHash2 str (cstrlen str)

/-- `Hash<I>::GenerateHash(const char (&str)[N])` (lines 79-97).  `Hash<0>`
returns the offset basis `2166136261u`; `Hash<I>` returns
`(Hash<I-1>::GenerateHash(str) ^ static_cast<uint32_t>(str[I-1])) * 16777619u`.
The array access `str[i]` is modelled by `List.getD str i 0` (in-range for
every instantiation the header produces, since `I ≤ N - 1`). -/
def HashGenerateHash : Nat → List Nat → Nat
  | 0, _ => 2166136261
  | i + 1, str => fnvStep (HashGenerateHash i str) (str.getD i 0)

/-- `HashHelper<char[N]>::Generate` (lines 117-124): invokes
`Hash<N-1>::GenerateHash(str)` on the whole array of size `N` (terminator
included as last element).  Here the list is the whole array, so `N` is its
length. -/
def HashHelperArrayGenerate (str : List Nat) : Nat :=
  HashGenerateHash (str.length - 1) str

/-- `HashHelper<const char*>::Generate` (lines 108-115): invokes the run-time
`GenerateFNV1aHash(str)`. -/
def HashHelperPtrGenerate (str : List Nat) : Nat :=
  GenerateFNV1aHash1 str

/-- `GenerateHash<T>` (lines 126-130) instantiated at `T = char[N]`. -/
def GenerateHashArray (str : List Nat) : Nat := HashHelperArrayGenerate str

/-- `GenerateHash<T>` (lines 126-130) instantiated at `T = const char*`. -/
def GenerateHashPtr (str : List Nat) : Nat := HashHelperPtrGenerate str

/-- The `StringHash` class (lines 137-149): stores the single `uint32_t`
member `m_hash`. -/
structure StringHash where
  m_hash : Nat

/-- The `StringHash` constructor (lines 140-143) for an array argument:
`m_hash(GenerateHash(str))` with `T = char[N]`. -/
def StringHash.mkFromArray (str : List Nat) : StringHash :=
  ⟨GenerateHashArray str⟩

/-- The `StringHash` constructor (lines 140-143) for a pointer argument:
`m_hash(GenerateHash(str))` with `T = const char*`. -/
def StringHash.mkFromPtr (str : List Nat) : StringHash :=
  ⟨GenerateHashPtr str⟩

/-- `uint32_t StringHash::Get(void)` (line 145): returns `m_hash`. -/
def StringHash.Get (s : StringHash) : Nat := s.m_hash

/-- The fold described by the spec's own words for the dynamic path (§4.1:
"XOR the running hash with the byte's unsigned value, then multiply ... modulo
2^32 by 16777619"), stated from the spec for comparison with the source
function: the byte enters the XOR as its unsigned value `0..255`. -/
def specUnsignedFold (str : List Nat) (L h : Nat) : Nat :=
  (str.take L).foldl (fun a b => ((a ^^^ b) * 16777619) % U32MOD) h

/-! ## Bridging lemmas -/

/-- Equation: a zero `length` leaves the seed untouched. -/
theorem fnv3_zero (str : List Nat) (h : Nat) : GenerateFNV1aHash3 str 0 h = h := by
  cases str <;> rfl

/-- Equation: an exhausted buffer leaves the running hash untouched. -/
theorem fnv3_nil (L h : Nat) : GenerateFNV1aHash3 [] L h = h := by
  cases L <;> rfl

/-- The run-time loop is the left fold of `fnvStep` over the first `length`
bytes. -/
theorem fnv3_eq_foldl (str : List Nat) :
    ∀ (L h : Nat), GenerateFNV1aHash3 str L h = (str.take L).foldl fnvStep h := by
  induction str with
  | nil => intro L h; cases L <;> rfl
  | cons b rest ih =>
      intro L h
      cases L with
      | zero => rfl
      | succ l =>
          simp only [GenerateFNV1aHash3, List.take_succ_cons, List.foldl_cons]
          exact ih l (fnvStep h b)

/-- The template recursion `Hash<I>` evaluates to the left fold of `fnvStep`
over the first `I` bytes, provided `I` does not exceed the array size. -/
theorem hashGen_eq_foldl (str : List Nat) :
    ∀ i : Nat, i ≤ str.length →
      HashGenerateHash i str = (str.take i).foldl fnvStep 2166136261 := by
  intro i
  induction i with
  | zero => intro _; rfl
  | succ n ih =>
      intro hle
      have hn : n < str.length := Nat.lt_of_succ_le hle
      have hget : str[n]? = some (str.get ⟨n, hn⟩) := by
        simp [List.getElem?_eq_getElem hn]
      simp only [HashGenerateHash, ih (Nat.le_of_lt hn), List.take_succ, hget,
        Option.toList_some, List.foldl_append, List.foldl_cons, List.foldl_nil]
      congr 1
      simp [List.getD_eq_getElem?_getD, hget]

/-- `cstrlen` counts exactly the bytes strictly before the first zero. -/
theorem cstrlen_eq_takeWhile (str : List Nat) :
    cstrlen str = (str.takeWhile (fun b => b != 0)).length := by
  induction str with
  | nil => rfl
  | cons b rest ih =>
      by_cases hb : b = 0
      · subst hb; simp [cstrlen, List.takeWhile_cons]
      · simp [cstrlen, List.takeWhile_cons, hb, ih]

/-- Taking `cstrlen` bytes is taking the bytes before the first zero. -/
theorem take_cstrlen_eq_takeWhile (str : List Nat) :
    str.take (cstrlen str) = str.takeWhile (fun b => b != 0) := by
  induction str with
  | nil => rfl
  | cons b rest ih =>
      by_cases hb : b = 0
      · subst hb; simp [cstrlen, List.takeWhile_cons]
      · simp [cstrlen, List.takeWhile_cons, hb, ih]

/-- The one-argument run-time overload folds exactly the bytes strictly before
the first zero byte. -/
theorem fnv1_eq_foldl_takeWhile (str : List Nat) :
    GenerateFNV1aHash1 str =
      (str.takeWhile (fun b => b != 0)).foldl fnvStep 2166136261 := by
  rw [GenerateFNV1aHash1, GenerateFNV1aHash2, fnv3_eq_foldl,
    take_cstrlen_eq_takeWhile]

/-- On an array `S ++ [0]` whose content bytes are all nonzero, the static
path `Hash<|S|>` and the dynamic path agree. -/
theorem static_dynamic_aux (S : List Nat) (hnz : ∀ b ∈ S, b ≠ 0) :
    HashGenerateHash S.length (S ++ [0]) = GenerateFNV1aHash1 (S ++ [0]) := by
  have htW : (S ++ [0]).takeWhile (fun b => b != 0) = S := by
    rw [List.takeWhile_append_of_pos (by intro b hb; simpa using hnz b hb)]
    simp [List.takeWhile_cons]
  have hlen : S.length ≤ (S ++ [0]).length := by simp
  rw [hashGen_eq_foldl _ _ hlen, fnv1_eq_foldl_takeWhile, htW]
  have : (S ++ [0]).take S.length = S := List.take_left S [0]
  rw [this]

/-! ## Bounds and seed injectivity -/

/-- Every loop step produces a value below `2^32`. -/
theorem fnvStep_lt (h b : Nat) : fnvStep h b < 4294967296 :=
  Nat.mod_lt _ (by decide)

/-- The char conversion of a byte stays below `2^32`. -/
theorem charCast_lt (b : Nat) (hb : b < 256) : charCast b < 4294967296 := by
  unfold charCast; split <;> omega

/-- XOR of two values below `2^32` stays below `2^32`. -/
theorem xor_lt_u32 {a v : Nat} (ha : a < 4294967296) (hv : v < 4294967296) :
    a ^^^ v < 4294967296 := by
  have h32 : (4294967296 : Nat) = 2 ^ 32 := by norm_num
  rw [h32] at ha hv ⊢
  exact Nat.bitwise_lt ha hv

/-- A single FNV-1a step is injective in the running hash: XOR with a fixed
word is an involution and multiplication by the odd constant `16777619` is
invertible modulo `2^32`. -/
theorem fnvStep_inj (v : Nat) (hv : v < 4294967296) (a b : Nat)
    (ha : a < 4294967296) (hb : b < 4294967296)
    (heq : ((a ^^^ v) * 16777619) % U32MOD = ((b ^^^ v) * 16777619) % U32MOD) :
    a = b := by
  have hcop : Nat.gcd U32MOD 16777619 = 1 := by
    have h1 : Nat.Coprime (2 ^ 32) 16777619 :=
      Nat.Coprime.pow_left 32 (Nat.coprime_two_left.mpr (Nat.odd_iff.mpr rfl))
    have h2 : U32MOD = 2 ^ 32 := by norm_num [U32MOD]
    rw [h2]; exact h1
  have hmod : a ^^^ v ≡ b ^^^ v [MOD U32MOD] :=
    Nat.ModEq.cancel_right_of_coprime hcop heq
  have hx : a ^^^ v = b ^^^ v := by
    have h1 : a ^^^ v < U32MOD := xor_lt_u32 ha hv
    have h2 : b ^^^ v < U32MOD := xor_lt_u32 hb hv
    have h3 : (a ^^^ v) % U32MOD = (b ^^^ v) % U32MOD := hmod
    rwa [Nat.mod_eq_of_lt h1, Nat.mod_eq_of_lt h2] at h3
  have h4 := congrArg (fun x => x ^^^ v) hx
  simpa [Nat.xor_cancel_right] using h4

/-- For byte inputs, the run-time loop is injective in its seed argument. -/
theorem fnv3_seed_inj :
    ∀ (L : Nat) (str : List Nat), (∀ b ∈ str, b < 256) →
      ∀ a b : Nat, a < 4294967296 → b < 4294967296 → a ≠ b →
        GenerateFNV1aHash3 str L a ≠ GenerateFNV1aHash3 str L b := by
  intro L
  induction L with
  | zero => intro str _ a b _ _ hne; rw [fnv3_zero, fnv3_zero]; exact hne
  | succ l ih =>
      intro str hbs a b ha hb hne
      cases str with
      | nil => rw [fnv3_nil, fnv3_nil]; exact hne
      | cons c rest =>
          show GenerateFNV1aHash3 rest l (fnvStep a c) ≠
            GenerateFNV1aHash3 rest l (fnvStep b c)
          apply ih rest (fun x hx => hbs x (List.mem_cons_of_mem c hx))
            (fnvStep a c) (fnvStep b c) (fnvStep_lt a c) (fnvStep_lt b c)
          intro hstep
          exact hne (fnvStep_inj (charCast c)
            (charCast_lt c (hbs c (List.mem_cons_self c rest))) a b ha hb hstep)

/-! ## The claims -/

/-- Claim C1: for every content sequence `S` without interior zero bytes,
stored as the array `S ++ [0]` of size `N = |S| + 1`, the compile-time path
`Hash<N-1>::GenerateHash` on the array returns the same 32-bit value as the
run-time path `GenerateFNV1aHash` on the pointer to the same storage. -/
theorem static_path_eq_dynamic_path (S : List Nat) (hnz : ∀ b ∈ S, b ≠ 0) :
    HashGenerateHash ((S ++ [0]).length - 1) (S ++ [0]) =
      GenerateFNV1aHash1 (S ++ [0]) := by
  have h1 : (S ++ [0]).length - 1 = S.length := by simp
  rw [h1]
  exact static_dynamic_aux S hnz

/-- Witness for C1 at the concrete content "hi" (bytes 104, 105). -/
theorem static_path_eq_dynamic_path_witness :
    (∀ b ∈ ([104, 105] : List Nat), b ≠ 0) ∧
      HashGenerateHash ((([104, 105] : List Nat) ++ [0]).length - 1)
          (([104, 105] : List Nat) ++ [0]) =
        GenerateFNV1aHash1 (([104, 105] : List Nat) ++ [0]) :=
  ⟨by decide, static_path_eq_dynamic_path [104, 105] (by decide)⟩

/-- Claim C2, counterexample: on the byte `0x80` the loop does not XOR the
byte's unsigned value: `static_cast<uint32_t>` sign-extends the signed char,
so the fold described by the spec's words disagrees with the code. -/
theorem dynamic_hash_ne_unsigned_fold :
    GenerateFNV1aHash3 [128] 1 0 ≠ specUnsignedFold [128] 1 0 := by decide

/-- Claim C2 as amended: the loop is the left fold over the first `L` bytes
starting from the seed, where each step XORs the sign-extending 32-bit
conversion of the char (the byte itself below 128, byte + 4294967040 from 128
up) and multiplies by 16777619 modulo `2^32`; for `L = 0` it returns the seed
unchanged. -/
theorem dynamic_hash_eq_signed_fold (str : List Nat) (L h : Nat) :
    GenerateFNV1aHash3 str L h = (str.take L).foldl fnvStep h ∧
      GenerateFNV1aHash3 str 0 h = h :=
  ⟨fnv3_eq_foldl str L h, fnv3_zero str h⟩

/-- Claim C3: the static path satisfies the stated recursion — depth 0 yields
the offset basis 2166136261, depth `I` XORs the char at index `I-1` into the
depth-`I-1` value and multiplies by 16777619 modulo `2^32` — the `char[N]`
entry point invokes it at depth `N-1`, and consequently the static path folds
exactly the `N-1` content characters, terminator excluded. -/
theorem static_recursion_spec :
    (∀ str : List Nat, HashGenerateHash 0 str = 2166136261) ∧
    (∀ (str : List Nat) (i : Nat),
        HashGenerateHash (i + 1) str =
          ((HashGenerateHash i str ^^^ charCast (str.getD i 0)) * 16777619) %
            4294967296) ∧
    (∀ str : List Nat,
        HashHelperArrayGenerate str = HashGenerateHash (str.length - 1) str) ∧
    (∀ str : List Nat,
        HashHelperArrayGenerate str =
          (str.take (str.length - 1)).foldl fnvStep 2166136261) := by
  refine ⟨fun _ => rfl, fun _ _ => rfl, fun _ => rfl, fun str => ?_⟩
  exact hashGen_eq_foldl str _ (Nat.sub_le _ _)

/-- Claim C4: the two-argument overload is the three-argument overload seeded
with 2166136261, and the one-argument overload is the two-argument overload at
the scanned length, which is the number of bytes before the first zero. -/
theorem overload_defaults :
    (∀ (str : List Nat) (L : Nat),
        GenerateFNV1aHash2 str L = GenerateFNV1aHash3 str L 2166136261) ∧
    (∀ str : List Nat, GenerateFNV1aHash1 str = GenerateFNV1aHash2 str (cstrlen str)) ∧
    (∀ str : List Nat, cstrlen str = (str.takeWhile (fun b => b != 0)).length) :=
  ⟨fun _ _ => rfl, fun _ => rfl, cstrlen_eq_takeWhile⟩

/-- Claim C5, code evaluated at the failing input: on the byte `0x80` both the
dynamic path and the static path XOR the value 4294967168 (the sign extension
of the signed char −128) into the running hash, not the unsigned byte value
128, and the two results differ. -/
theorem signed_char_xor_value :
    GenerateFNV1aHash3 [128] 1 2166136261 =
        ((2166136261 ^^^ 4294967168) * 16777619) % 4294967296 ∧
      HashHelperArrayGenerate [128, 0] =
        ((2166136261 ^^^ 4294967168) * 16777619) % 4294967296 ∧
      ((2166136261 ^^^ 4294967168) * 16777619) % 4294967296 ≠
        ((2166136261 ^^^ 128) * 16777619) % 4294967296 := by
  refine ⟨by decide, by decide, by decide⟩

/-- Claim C6: for a content sequence `S` without interior zeros, the
`StringHash` built from the literal array `S ++ [0]` and the one built from
the same characters presented as a null-terminated pointer report the same
`Get()` value, and `Get()` returns exactly the hash computed by
`GenerateHash` at construction. -/
theorem stringHash_get_agreement (S : List Nat) (hnz : ∀ b ∈ S, b ≠ 0) :
    (StringHash.mkFromArray (S ++ [0])).Get = (StringHash.mkFromPtr (S ++ [0])).Get ∧
      (StringHash.mkFromArray (S ++ [0])).Get = GenerateHashArray (S ++ [0]) ∧
      (StringHash.mkFromPtr (S ++ [0])).Get = GenerateHashPtr (S ++ [0]) := by
  refine ⟨?_, rfl, rfl⟩
  have h2 : (StringHash.mkFromArray (S ++ [0])).Get =
      HashGenerateHash ((S ++ [0]).length - 1) (S ++ [0]) := rfl
  have h3 : (StringHash.mkFromPtr (S ++ [0])).Get =
      GenerateFNV1aHash1 (S ++ [0]) := rfl
  have h1 : (S ++ [0]).length - 1 = S.length := by simp
  rw [h2, h3, h1]
  exact static_dynamic_aux S hnz

/-- Witness for C6 at the concrete content "jk" (bytes 106, 107). -/
theorem stringHash_get_agreement_witness :
    (∀ b ∈ ([106, 107] : List Nat), b ≠ 0) ∧
      (StringHash.mkFromArray (([106, 107] : List Nat) ++ [0])).Get =
        (StringHash.mkFromPtr (([106, 107] : List Nat) ++ [0])).Get :=
  ⟨by decide, (stringHash_get_agreement [106, 107] (by decide)).1⟩

/-- Claim C7: the run-time hash is injective in its seed — a custom 32-bit
seed different from the offset basis 2166136261 always yields a different
value than the default-seeded overload on the same byte input. -/
theorem seed_threading_inj (str : List Nat) (L h : Nat)
    (hb : ∀ b ∈ str, b < 256) (hlt : h < 4294967296) (hne : h ≠ 2166136261) :
    GenerateFNV1aHash3 str L h ≠ GenerateFNV1aHash2 str L :=
  fnv3_seed_inj L str hb h 2166136261 hlt (by norm_num) hne

/-- Witness for C7 at the byte string "a", length 1, custom seed 0. -/
theorem seed_threading_inj_witness :
    (∀ b ∈ ([97] : List Nat), b < 256) ∧ (0 : Nat) < 4294967296 ∧
      (0 : Nat) ≠ 2166136261 ∧
      GenerateFNV1aHash3 [97] 1 0 ≠ GenerateFNV1aHash2 [97] 1 :=
  ⟨by decide, by decide, by decide,
    seed_threading_inj [97] 1 0 (by decide) (by decide) (by decide)⟩

/-- Claim C8: chained hashing is a homomorphism over concatenation — hashing
`S1 ++ S2` in one call with any seed equals hashing `S2` seeded with the hash
of `S1` under that seed. -/
theorem chained_hash_append (S1 S2 : List Nat) (h : Nat) :
    GenerateFNV1aHash3 (S1 ++ S2) (S1.length + S2.length) h =
      GenerateFNV1aHash3 S2 S2.length (GenerateFNV1aHash3 S1 S1.length h) := by
  rw [fnv3_eq_foldl, fnv3_eq_foldl, fnv3_eq_foldl]
  have h1 : (S1 ++ S2).take (S1.length + S2.length) = S1 ++ S2 :=
    List.take_of_length_le (by simp)
  rw [h1, List.take_length, List.take_length, List.foldl_append]

/-- Claim C9: the run-time hash of "abc" with the default seed equals the
hand-applied algorithm — seed 2166136261, then one XOR-multiply step for each
of 0x61, 0x62, 0x63 — whose value is 440920331 (0x1a47e90b). -/
theorem known_vector_abc :
    GenerateFNV1aHash1 [97, 98, 99, 0] =
        ((((((2166136261 ^^^ 97) * 16777619) % 4294967296 ^^^ 98) * 16777619) %
              4294967296 ^^^ 99) * 16777619) % 4294967296 ∧
      GenerateFNV1aHash1 [97, 98, 99, 0] = 440920331 := by
  refine ⟨by decide, by decide⟩

/-- Claim C10: the pointer overload folds exactly the bytes strictly before
the first zero, the array path folds all `N-1` leading array elements, zeros
included, and so on an array whose first `N-1` elements contain an interior
zero the two paths fold different prefixes of the same storage. -/
theorem interior_zero_paths_differ (str : List Nat)
    (hz : 0 ∈ str.take (str.length - 1)) :
    GenerateFNV1aHash1 str =
        (str.takeWhile (fun b => b != 0)).foldl fnvStep 2166136261 ∧
      HashHelperArrayGenerate str =
        (str.take (str.length - 1)).foldl fnvStep 2166136261 ∧
      str.takeWhile (fun b => b != 0) ≠ str.take (str.length - 1) := by
  refine ⟨fnv1_eq_foldl_takeWhile str, hashGen_eq_foldl str _ (Nat.sub_le _ _), ?_⟩
  intro hEq
  have h0 : (0 : Nat) ∈ str.takeWhile (fun b => b != 0) := hEq ▸ hz
  have h1 := List.mem_takeWhile_imp h0
  simp at h1

/-- Witness for C10 at the array "a\0b" ++ terminator (bytes 97, 0, 98, 0). -/
theorem interior_zero_paths_differ_witness :
    (0 ∈ ([97, 0, 98, 0] : List Nat).take (([97, 0, 98, 0] : List Nat).length - 1)) ∧
      ([97, 0, 98, 0] : List Nat).takeWhile (fun b => b != 0) ≠
        ([97, 0, 98, 0] : List Nat).take (([97, 0, 98, 0] : List Nat).length - 1) :=
  ⟨by decide, (interior_zero_paths_differ [97, 0, 98, 0] (by decide)).2.2⟩
